import Mathlib

/-!
Shallow embedding of the energy-ecosystem simulation engine
(`src/simulation.ts`): deterministic hourly load/generation pattern
generators, the per-hour surplus/shortfall allocator `simulateOneHour`,
and the 24-step orchestrator `runSimulation`.  Floating-point numbers are
modelled as real numbers; arrays as lists.
-/

namespace EnergySim

/-- const FACTORY_LOAD_BASE = 350.0 -/
def FACTORY_LOAD_BASE : ℝ := 350.0
/-- const FACTORY_LOAD_PEAK = 550.0 -/
def FACTORY_LOAD_PEAK : ℝ := 550.0
/-- const PUBLIC_FACILITY_LOAD_BASE = 70.0 -/
def PUBLIC_FACILITY_LOAD_BASE : ℝ := 70.0
/-- const PUBLIC_FACILITY_LOAD_PEAK = 130.0 -/
def PUBLIC_FACILITY_LOAD_PEAK : ℝ := 130.0
/-- const EV_CHARGING_POWER = 3.0 -/
def EV_CHARGING_POWER : ℝ := 3.0
/-- const EV_CHARGING_HOURS = [22, 23, 0, 1, 2, 3] -/
def EV_CHARGING_HOURS : List ℕ := [22, 23, 0, 1, 2, 3]

/-- Math.max of a nonempty array (the generator below only applies it to a
nonempty pattern; the empty case is arbitrary). -/
def listMax : List ℝ → ℝ
  | [] => 0
  | x :: xs => xs.foldl max x

/-- The loop body of generateHouseholdLoadPattern: morning/evening Gaussian
peaks plus a sinusoidal base (the un-normalized curve). -/
noncomputable def householdLoadRaw (t : ℕ) : ℝ :=
  let morningPeak := 0.3 * Real.exp (-(((t : ℝ) - 8) / 1.5) ^ 2)
  let eveningPeak := 0.5 * Real.exp (-(((t : ℝ) - 20) / 2) ^ 2)
  let baseLoad := 0.2 + 0.1 * Real.sin (2 * Real.pi * (t : ℝ) / 24)
  baseLoad + morningPeak + eveningPeak

/-- generateHouseholdLoadPattern: the raw curve rescaled so its maximum is
1.0. -/
noncomputable def generateHouseholdLoadPattern (hours : ℕ) : List ℝ :=
  let pat := (List.range hours).map householdLoadRaw
  let maxValue := listMax pat
  pat.map (fun p => p / maxValue * 1.0)

/-- generateFactoryLoadPatternA: steady operation, clamped to
[0.8·base, 1.1·peak]. -/
noncomputable def generateFactoryLoadPatternA (hours : ℕ) : List ℝ :=
  (List.range hours).map (fun t =>
    let value := FACTORY_LOAD_BASE +
      (FACTORY_LOAD_PEAK - FACTORY_LOAD_BASE) *
        (0.5 + 0.3 * Real.sin (2 * Real.pi * (t : ℝ) / 24))
    max (FACTORY_LOAD_BASE * 0.8) (min (FACTORY_LOAD_PEAK * 1.1) value))

/-- generateFactoryLoadPatternB: daytime-concentrated load, clamped to
[0.5·base, 1.2·peak]. -/
noncomputable def generateFactoryLoadPatternB (hours : ℕ) : List ℝ :=
  (List.range hours).map (fun t =>
    let daytimeBoost := Real.exp (-(((t : ℝ) - 13) / 3) ^ 2)
    let value := FACTORY_LOAD_BASE +
      (FACTORY_LOAD_PEAK - FACTORY_LOAD_BASE) * (0.3 + 0.7 * daytimeBoost)
    max (FACTORY_LOAD_BASE * 0.5) (min (FACTORY_LOAD_PEAK * 1.2) value))

/-- generatePublicFacilityLoadPattern: daytime Gaussian on top of the base. -/
noncomputable def generatePublicFacilityLoadPattern (hours : ℕ) : List ℝ :=
  (List.range hours).map (fun t =>
    let daytimePattern := Real.exp (-(((t : ℝ) - 13) / 4) ^ 2)
    PUBLIC_FACILITY_LOAD_BASE +
      (PUBLIC_FACILITY_LOAD_PEAK - PUBLIC_FACILITY_LOAD_BASE) * daytimePattern)

/-- generatePvGenerationPattern: Gaussian centred at hour 12 for hours in
[6, 18], zero outside, scaled by pvCapacity × 0.8. -/
noncomputable def generatePvGenerationPattern (hours : ℕ) (pvCapacity : ℝ) :
    List ℝ :=
  (List.range hours).map (fun i =>
    let hour : ℕ := i % 24
    let value : ℝ :=
      if 6 ≤ hour ∧ hour ≤ 18 then Real.exp (-(((hour : ℝ) - 12) / 3) ^ 2)
      else 0
    value * pvCapacity * 0.8)

/-- generateEvLoadPattern: fixed EV charging power during the night window. -/
def generateEvLoadPattern (hours : ℕ) : List ℝ :=
  (List.range hours).map (fun i =>
    let hour : ℕ := i % 24
    if hour ∈ EV_CHARGING_HOURS then EV_CHARGING_POWER else 0)

/-- The household charging loop of simulateOneHour (surplus branch): each
battery in order is charged by min(surplus / n, capacity − level) while the
remaining surplus is positive, where n is the battery count fixed at loop
start.  Returns the updated battery list and the remaining surplus. -/
noncomputable def chargeHouseholds (n : ℕ) (cap : ℝ) : List ℝ → ℝ → List ℝ × ℝ
  | [], surplus => ([], surplus)
  | b :: bs, surplus =>
    if 0 < surplus then
      let amt := min (surplus / (n : ℝ)) (cap - b)
      let rest := chargeHouseholds n cap bs (surplus - amt)
      ((b + amt) :: rest.1, rest.2)
    else (b :: bs, surplus)

/-- The household discharging loop of simulateOneHour (shortfall branch):
each battery in order is discharged by min(shortage / n, level) while the
remaining shortage is positive, n fixed at loop start. -/
noncomputable def dischargeHouseholds (n : ℕ) : List ℝ → ℝ → List ℝ × ℝ
  | [], shortage => ([], shortage)
  | b :: bs, shortage =>
    if 0 < shortage then
      let amt := min (shortage / (n : ℝ)) b
      let rest := dischargeHouseholds n bs (shortage - amt)
      ((b - amt) :: rest.1, rest.2)
    else (b :: bs, shortage)

/-- Return value of simulateOneHour. -/
structure HourOutcome where
  gridPurchase : ℝ
  gridSell : ℝ
  updatedHouseholdBatteries : List ℝ
  updatedSharedBattery : ℝ

/-- simulateOneHour: route the hour's surplus (or shortfall) through the
household batteries, then the shared battery, then the grid. -/
noncomputable def simulateOneHour (pvGeneration householdLoad factoryLoad publicLoad
    evLoad : ℝ) (householdBatteries : List ℝ) (sharedBattery : ℝ)
    (householdBatteryCapacity sharedBatteryCapacity : ℝ) : HourOutcome :=
  let totalLoad := householdLoad + factoryLoad + publicLoad + evLoad
  let netGeneration := pvGeneration - totalLoad
  if 0 < netGeneration then
    let p := chargeHouseholds householdBatteries.length
      householdBatteryCapacity householdBatteries netGeneration
    let chargeAmount :=
      if 0 < p.2 then min p.2 (sharedBatteryCapacity - sharedBattery) else 0
    let surplus := p.2 - chargeAmount
    { gridPurchase := 0
      gridSell := if 0 < surplus then surplus else 0
      updatedHouseholdBatteries := p.1
      updatedSharedBattery := sharedBattery + chargeAmount }
  else
    let p := dischargeHouseholds householdBatteries.length
      householdBatteries (-netGeneration)
    let dischargeAmount := if 0 < p.2 then min p.2 sharedBattery else 0
    let shortage := p.2 - dischargeAmount
    { gridPurchase := if 0 < shortage then shortage else 0
      gridSell := 0
      updatedHouseholdBatteries := p.1
      updatedSharedBattery := sharedBattery - dischargeAmount }

/-- SimulationParams (types.ts). -/
structure SimulationParams where
  numHouseholds : ℕ
  householdPvCapacity : ℝ
  householdBatteryCapacity : ℝ
  sharedBatteryCapacity : ℝ
  factoryLoadPatternA : Bool

/-- HourlyResult (types.ts). -/
structure HourlyResult where
  hour : ℕ
  pvGeneration : ℝ
  totalLoad : ℝ
  householdBatteryLevel : ℝ
  sharedBatteryLevel : ℝ
  gridPurchase : ℝ
  gridSell : ℝ

/-- SimulationResult (types.ts). -/
structure SimulationResult where
  hourlyResults : List HourlyResult
  totalGridPurchase : ℝ
  totalGridSell : ℝ
  totalPvGeneration : ℝ
  selfConsumptionRate : ℝ

/-- The mutable state threaded through runSimulation's hourly loop. -/
structure SimState where
  householdBatteries : List ℝ
  sharedBattery : ℝ
  hourlyResults : List HourlyResult
  totalGridPurchase : ℝ
  totalGridSell : ℝ
  totalPvGeneration : ℝ

/-- The factory pattern selected by params.factoryLoadPattern === "A". -/
noncomputable def factoryPattern (params : SimulationParams) : List ℝ :=
  if params.factoryLoadPatternA then generateFactoryLoadPatternA 24
  else generateFactoryLoadPatternB 24

/-- One iteration of runSimulation's hourly loop. -/
noncomputable def simStep (params : SimulationParams) (st : SimState)
    (hour : ℕ) : SimState :=
  let totalPv := (generatePvGenerationPattern 24
    params.householdPvCapacity).getD hour 0 * (params.numHouseholds : ℝ)
  let totalHouseholdLoad := (generateHouseholdLoadPattern 24).getD hour 0 *
    (params.numHouseholds : ℝ)
  let totalEvLoad := (generateEvLoadPattern 24).getD hour 0 *
    (params.numHouseholds : ℝ)
  let factoryLoad := (factoryPattern params).getD hour 0
  let publicLoad := (generatePublicFacilityLoadPattern 24).getD hour 0
  let result := simulateOneHour totalPv totalHouseholdLoad factoryLoad
    publicLoad totalEvLoad st.householdBatteries st.sharedBattery
    params.householdBatteryCapacity params.sharedBatteryCapacity
  let totalLoad := totalHouseholdLoad + factoryLoad + publicLoad + totalEvLoad
  { householdBatteries := result.updatedHouseholdBatteries
    sharedBattery := result.updatedSharedBattery
    hourlyResults := st.hourlyResults ++
      [{ hour := hour
         pvGeneration := totalPv
         totalLoad := totalLoad
         householdBatteryLevel := result.updatedHouseholdBatteries.sum
         sharedBatteryLevel := result.updatedSharedBattery
         gridPurchase := result.gridPurchase
         gridSell := result.gridSell }]
    totalGridPurchase := st.totalGridPurchase + result.gridPurchase
    totalGridSell := st.totalGridSell + result.gridSell
    totalPvGeneration := st.totalPvGeneration + totalPv }

/-- Initial state: every battery at 50% of its capacity, empty results. -/
def initState (params : SimulationParams) : SimState :=
  { householdBatteries := List.replicate params.numHouseholds
      (params.householdBatteryCapacity * 0.5)
    sharedBattery := params.sharedBatteryCapacity * 0.5
    hourlyResults := []
    totalGridPurchase := 0
    totalGridSell := 0
    totalPvGeneration := 0 }

/-- The first n iterations of runSimulation's hourly loop (the source runs
exactly 24; n is generalized for induction). -/
noncomputable def simLoop (params : SimulationParams) (n : ℕ) : SimState :=
  (List.range n).foldl (simStep params) (initState params)

/-- runSimulation: 24 hourly steps, then the aggregate metrics. -/
noncomputable def runSimulation (params : SimulationParams) :
    SimulationResult :=
  let final := simLoop params 24
  let selfConsumption := final.totalPvGeneration - final.totalGridSell
  { hourlyResults := final.hourlyResults
    totalGridPurchase := final.totalGridPurchase
    totalGridSell := final.totalGridSell
    totalPvGeneration := final.totalPvGeneration
    selfConsumptionRate :=
      if 0 < final.totalPvGeneration then
        selfConsumption / final.totalPvGeneration * 100
      else 0 }

attribute [irreducible] simLoop

/-- Parameter validity as the engine assumes it (spec §3/§6): at least one
household, non-negative PV and battery capacities. -/
def ValidParams (params : SimulationParams) : Prop :=
  1 ≤ params.numHouseholds ∧ 0 ≤ params.householdPvCapacity ∧
    0 ≤ params.householdBatteryCapacity ∧ 0 ≤ params.sharedBatteryCapacity

/-- Combined battery level recorded in an hourly result. -/
def totalLevel (r : HourlyResult) : ℝ :=
  r.householdBatteryLevel + r.sharedBatteryLevel

/-- The hourly energy-balance equation along a result sequence: for each
record, pv + purchase + (positive part of the battery-level drop) equals
load + sell + (positive part of the battery-level rise), where the level
before the first record is the given initial level. -/
def hourlyBalanced (before : ℝ) : List HourlyResult → Prop
  | [] => True
  | r :: rs =>
    (r.pvGeneration + r.gridPurchase + max (before - totalLevel r) 0 =
      r.totalLoad + r.gridSell + max (totalLevel r - before) 0) ∧
      hourlyBalanced (totalLevel r) rs

/-- The combined battery level after the last record (the initial level when
there is none). -/
def lastLevel (before : ℝ) : List HourlyResult → ℝ
  | [] => before
  | r :: rs => lastLevel (totalLevel r) rs

/-- Combined battery level of the 50%-of-capacity initial state. -/
def initLevel (params : SimulationParams) : ℝ :=
  (params.numHouseholds : ℝ) * (params.householdBatteryCapacity * 0.5) +
    params.sharedBatteryCapacity * 0.5

/-- Aggregate PV generation handed to the allocator for a given hour. -/
noncomputable def pvAt (params : SimulationParams) (h : ℕ) : ℝ :=
  (generatePvGenerationPattern 24 params.householdPvCapacity).getD h 0 *
    (params.numHouseholds : ℝ)

/-- Aggregate total load for a given hour. -/
noncomputable def loadAt (params : SimulationParams) (h : ℕ) : ℝ :=
  (generateHouseholdLoadPattern 24).getD h 0 * (params.numHouseholds : ℝ) +
    (factoryPattern params).getD h 0 +
    (generatePublicFacilityLoadPattern 24).getD h 0 +
    (generateEvLoadPattern 24).getD h 0 * (params.numHouseholds : ℝ)

/-- Per-record facts maintained along the hourly loop. -/
def RecordOK (params : SimulationParams) (r : HourlyResult) : Prop :=
  r.pvGeneration = pvAt params r.hour ∧
  r.totalLoad = loadAt params r.hour ∧
  0 ≤ r.pvGeneration ∧ 0 ≤ r.totalLoad ∧
  0 ≤ r.gridPurchase ∧ 0 ≤ r.gridSell ∧ r.gridSell ≤ r.pvGeneration ∧
  0 ≤ r.householdBatteryLevel ∧
  r.householdBatteryLevel ≤
    (params.numHouseholds : ℝ) * params.householdBatteryCapacity ∧
  0 ≤ r.sharedBatteryLevel ∧
  r.sharedBatteryLevel ≤ params.sharedBatteryCapacity ∧
  (r.gridPurchase = 0 ∨ r.gridSell = 0)

/-- Invariant of runSimulation's hourly loop after n steps. -/
structure LoopInv (params : SimulationParams) (n : ℕ) (st : SimState) :
    Prop where
  len : st.householdBatteries.length = params.numHouseholds
  hbMem : ∀ b ∈ st.householdBatteries,
    0 ≤ b ∧ b ≤ params.householdBatteryCapacity
  sbLo : 0 ≤ st.sharedBattery
  sbHi : st.sharedBattery ≤ params.sharedBatteryCapacity
  hoursEq : st.hourlyResults.map HourlyResult.hour = List.range n
  recOK : ∀ r ∈ st.hourlyResults, RecordOK params r
  balanced : hourlyBalanced (initLevel params) st.hourlyResults
  lastLvl : lastLevel (initLevel params) st.hourlyResults =
    st.householdBatteries.sum + st.sharedBattery
  pvTotal : st.totalPvGeneration =
    (Finset.range n).sum (fun h => pvAt params h)
  sellLo : 0 ≤ st.totalGridSell
  sellHi : st.totalGridSell ≤ st.totalPvGeneration
  purchaseLo : 0 ≤ st.totalGridPurchase

/-- Allocation with no household batteries, written from the spec's words
(§4.2 edge case): the surplus or shortage is routed directly to the shared
battery and then the grid, the household pass being skipped entirely. -/
noncomputable def sharedThenGrid (pvGeneration totalLoad sharedBattery
    sharedBatteryCapacity : ℝ) : HourOutcome :=
  let net := pvGeneration - totalLoad
  if 0 < net then
    let c := if 0 < net then min net (sharedBatteryCapacity - sharedBattery)
      else 0
    { gridPurchase := 0
      gridSell := if 0 < net - c then net - c else 0
      updatedHouseholdBatteries := []
      updatedSharedBattery := sharedBattery + c }
  else
    let sh := -net
    let d := if 0 < sh then min sh sharedBattery else 0
    { gridPurchase := if 0 < sh - d then sh - d else 0
      gridSell := 0
      updatedHouseholdBatteries := []
      updatedSharedBattery := sharedBattery - d }

/-- The default parameter set of the app (App.tsx): 100 households, 15 kW
PV, 10 kWh household battery, 500 kWh shared battery, pattern "A". -/
def sampleParams : SimulationParams :=
  { numHouseholds := 100
    householdPvCapacity := 15
    householdBatteryCapacity := 10
    sharedBatteryCapacity := 500
    factoryLoadPatternA := true }

/-! ### Helper lemmas -/

/-- sampleParams is a valid parameter set. -/
theorem sampleParams_valid : ValidParams sampleParams := by
  refine ⟨?_, ?_, ?_, ?_⟩ <;> norm_num [sampleParams]

/-- Dividing a non-negative real by a natural number never increases it. -/
theorem div_natCast_le (s : ℝ) (hs : 0 ≤ s) (n : ℕ) : s / (n : ℝ) ≤ s := by
  cases n with
  | zero => simpa using hs
  | succ m =>
    exact div_le_self hs (by exact_mod_cast Nat.succ_le_succ (Nat.zero_le m))

/-- getD with default 0 of a list of non-negative reals is non-negative. -/
theorem getD_nonneg (l : List ℝ) (hl : ∀ x ∈ l, 0 ≤ x) (i : ℕ) :
    0 ≤ l.getD i 0 := by
  induction l generalizing i with
  | nil => simp [List.getD]
  | cons x xs ih =>
    cases i with
    | zero => simpa using hl x (by simp)
    | succ j =>
      simpa using ih (fun y hy => hl y (by simp [hy])) j

/-- getD of a tabulated list is the tabulating function, in range. -/
theorem getD_map_range {α : Type} [Inhabited α] (f : ℕ → α) (d : α)
    {n i : ℕ} (h : i < n) : ((List.range n).map f).getD i d = f i := by
  rw [List.getD_eq_getElem?_getD]
  simp [List.getElem?_map, List.getElem?_range h]

/-- The seed is below the foldl of max. -/
theorem le_foldl_max (x : ℝ) (l : List ℝ) : x ≤ l.foldl max x := by
  induction l generalizing x with
  | nil => exact le_refl x
  | cons y ys ih => exact le_trans (le_max_left x y) (ih (max x y))

/-- listMax of a cons is at least its head. -/
theorem head_le_listMax (x : ℝ) (xs : List ℝ) : x ≤ listMax (x :: xs) :=
  le_foldl_max x xs

/-- Converting the signed balance identity into the positive-part form used
by the spec's energy-conservation property. -/
theorem balance_max_form {pv pur load sell before after : ℝ}
    (h : pv + pur = load + sell + (after - before)) :
    pv + pur + max (before - after) 0 =
      load + sell + max (after - before) 0 := by
  rcases le_total after before with hc | hc
  · rw [max_eq_left (by linarith), max_eq_right (by linarith)]
    linarith
  · rw [max_eq_right (by linarith), max_eq_left (by linarith)]
    linarith

/-- Appending a record that balances against the running last level keeps a
result sequence balanced. -/
theorem hourlyBalanced_append {b : ℝ} {rs : List HourlyResult}
    {r : HourlyResult} (h1 : hourlyBalanced b rs)
    (h2 : r.pvGeneration + r.gridPurchase +
        max (lastLevel b rs - totalLevel r) 0 =
      r.totalLoad + r.gridSell + max (totalLevel r - lastLevel b rs) 0) :
    hourlyBalanced b (rs ++ [r]) := by
  induction rs generalizing b with
  | nil => exact ⟨h2, trivial⟩
  | cons x xs ih => exact ⟨h1.1, ih h1.2 h2⟩

/-- lastLevel after appending one record is that record's level. -/
theorem lastLevel_append (b : ℝ) (rs : List HourlyResult) (r : HourlyResult) :
    lastLevel b (rs ++ [r]) = totalLevel r := by
  induction rs generalizing b with
  | nil => rfl
  | cons x xs ih => exact ih (totalLevel x)

/-! ### Household charge/discharge loop lemmas -/

/-- The charging pass does not change the number of batteries. -/
theorem chargeHouseholds_length (n : ℕ) (cap : ℝ) (l : List ℝ) (s : ℝ) :
    ((chargeHouseholds n cap l s).1).length = l.length := by
  induction l generalizing s with
  | nil => simp [chargeHouseholds]
  | cons b bs ih =>
    by_cases hs : 0 < s
    · simp [chargeHouseholds, hs, ih]
    · simp [chargeHouseholds, hs]

/-- Energy absorbed by the charging pass equals the drop in surplus. -/
theorem chargeHouseholds_sum (n : ℕ) (cap : ℝ) (l : List ℝ) (s : ℝ) :
    ((chargeHouseholds n cap l s).1).sum =
      l.sum + (s - (chargeHouseholds n cap l s).2) := by
  induction l generalizing s with
  | nil => simp [chargeHouseholds]
  | cons b bs ih =>
    by_cases hs : 0 < s
    · simp only [chargeHouseholds, if_pos hs, List.sum_cons]
      rw [ih]
      ring
    · simp [chargeHouseholds, hs]

/-- The charging pass keeps every battery level within [0, capacity]. -/
theorem chargeHouseholds_mem (n : ℕ) (cap : ℝ) (l : List ℝ) (s : ℝ)
    (hs : 0 ≤ s) (hl : ∀ b ∈ l, 0 ≤ b ∧ b ≤ cap) :
    ∀ b ∈ (chargeHouseholds n cap l s).1, 0 ≤ b ∧ b ≤ cap := by
  induction l generalizing s with
  | nil => simp [chargeHouseholds]
  | cons b bs ih =>
    have hb := hl b (by simp)
    by_cases hpos : 0 < s
    · simp only [chargeHouseholds, if_pos hpos, List.mem_cons]
      rintro x (rfl | hx)
      · constructor
        · have h1 : 0 ≤ s / (n : ℝ) :=
            div_nonneg hs (Nat.cast_nonneg n)
          have h2 : 0 ≤ cap - b := by linarith [hb.2]
          have : 0 ≤ min (s / (n : ℝ)) (cap - b) := le_min h1 h2
          linarith [hb.1]
        · have : min (s / (n : ℝ)) (cap - b) ≤ cap - b := min_le_right _ _
          linarith
      · refine ih (s - min (s / (n : ℝ)) (cap - b)) ?_
          (fun y hy => hl y (by simp [hy])) x hx
        have h1 : min (s / (n : ℝ)) (cap - b) ≤ s / (n : ℝ) := min_le_left _ _
        have h2 : s / (n : ℝ) ≤ s := div_natCast_le s hs n
        linarith
    · intro x hx
      exact hl x (by simpa [chargeHouseholds, hpos] using hx)

/-- The surplus left by the charging pass stays within [0, initial
surplus]. -/
theorem chargeHouseholds_surplus (n : ℕ) (cap : ℝ) (l : List ℝ) (s : ℝ)
    (hs : 0 ≤ s) (hl : ∀ b ∈ l, 0 ≤ b ∧ b ≤ cap) :
    0 ≤ (chargeHouseholds n cap l s).2 ∧ (chargeHouseholds n cap l s).2 ≤ s := by
  induction l generalizing s with
  | nil => simp [chargeHouseholds, hs]
  | cons b bs ih =>
    have hb := hl b (by simp)
    by_cases hpos : 0 < s
    · simp only [chargeHouseholds, if_pos hpos]
      have h1 : min (s / (n : ℝ)) (cap - b) ≤ s / (n : ℝ) := min_le_left _ _
      have h2 : s / (n : ℝ) ≤ s := div_natCast_le s hs n
      have h0 : 0 ≤ min (s / (n : ℝ)) (cap - b) :=
        le_min (div_nonneg hs (Nat.cast_nonneg n)) (by linarith [hb.2])
      have hrec := ih (s - min (s / (n : ℝ)) (cap - b)) (by linarith)
        (fun y hy => hl y (by simp [hy]))
      exact ⟨hrec.1, by linarith [hrec.2]⟩
    · simp [chargeHouseholds, hpos, hs]

/-- The discharging pass does not change the number of batteries. -/
theorem dischargeHouseholds_length (n : ℕ) (l : List ℝ) (s : ℝ) :
    ((dischargeHouseholds n l s).1).length = l.length := by
  induction l generalizing s with
  | nil => simp [dischargeHouseholds]
  | cons b bs ih =>
    by_cases hs : 0 < s
    · simp [dischargeHouseholds, hs, ih]
    · simp [dischargeHouseholds, hs]

/-- Energy released by the discharging pass equals the drop in shortage. -/
theorem dischargeHouseholds_sum (n : ℕ) (l : List ℝ) (s : ℝ) :
    ((dischargeHouseholds n l s).1).sum =
      l.sum - (s - (dischargeHouseholds n l s).2) := by
  induction l generalizing s with
  | nil => simp [dischargeHouseholds]
  | cons b bs ih =>
    by_cases hs : 0 < s
    · simp only [dischargeHouseholds, if_pos hs, List.sum_cons]
      rw [ih]
      ring
    · simp [dischargeHouseholds, hs]

/-- The discharging pass keeps every battery level within [0, capacity]. -/
theorem dischargeHouseholds_mem (n : ℕ) (cap : ℝ) (l : List ℝ) (s : ℝ)
    (hs : 0 ≤ s) (hl : ∀ b ∈ l, 0 ≤ b ∧ b ≤ cap) :
    ∀ b ∈ (dischargeHouseholds n l s).1, 0 ≤ b ∧ b ≤ cap := by
  induction l generalizing s with
  | nil => simp [dischargeHouseholds]
  | cons b bs ih =>
    have hb := hl b (by simp)
    by_cases hpos : 0 < s
    · simp only [dischargeHouseholds, if_pos hpos, List.mem_cons]
      rintro x (rfl | hx)
      · have h1 : min (s / (n : ℝ)) b ≤ b := min_le_right _ _
        have h0 : 0 ≤ min (s / (n : ℝ)) b :=
          le_min (div_nonneg hs (Nat.cast_nonneg n)) hb.1
        exact ⟨by linarith, by linarith [hb.2]⟩
      · refine ih (s - min (s / (n : ℝ)) b) ?_
          (fun y hy => hl y (by simp [hy])) x hx
        have h1 : min (s / (n : ℝ)) b ≤ s / (n : ℝ) := min_le_left _ _
        have h2 : s / (n : ℝ) ≤ s := div_natCast_le s hs n
        linarith
    · intro x hx
      exact hl x (by simpa [dischargeHouseholds, hpos] using hx)

/-- The shortage left by the discharging pass stays within [0, initial
shortage]. -/
theorem dischargeHouseholds_shortage (n : ℕ) (l : List ℝ) (s : ℝ)
    (hs : 0 ≤ s) (hl : ∀ b ∈ l, 0 ≤ b) :
    0 ≤ (dischargeHouseholds n l s).2 ∧
      (dischargeHouseholds n l s).2 ≤ s := by
  induction l generalizing s with
  | nil => simp [dischargeHouseholds, hs]
  | cons b bs ih =>
    have hb := hl b (by simp)
    by_cases hpos : 0 < s
    · simp only [dischargeHouseholds, if_pos hpos]
      have h1 : min (s / (n : ℝ)) b ≤ s / (n : ℝ) := min_le_left _ _
      have h2 : s / (n : ℝ) ≤ s := div_natCast_le s hs n
      have h0 : 0 ≤ min (s / (n : ℝ)) b :=
        le_min (div_nonneg hs (Nat.cast_nonneg n)) hb
      have hrec := ih (s - min (s / (n : ℝ)) b) (by linarith)
        (fun y hy => hl y (by simp [hy]))
      exact ⟨hrec.1, by linarith [hrec.2]⟩
    · simp [dischargeHouseholds, hpos, hs]

/-! ### Allocator properties -/

/-- Under in-range inputs the allocator keeps all battery levels within
their capacities, returns non-negative grid flows with at most one of them
nonzero, sells no more than the hour's generation, and satisfies the hourly
energy balance. -/
theorem simulateOneHour_props (pv hl fl pl el : ℝ) (hb : List ℝ)
    (sb cap scap : ℝ) (out : HourOutcome)
    (hout : simulateOneHour pv hl fl pl el hb sb cap scap = out)
    (hpv : 0 ≤ pv) (hload : 0 ≤ hl + fl + pl + el)
    (hmem : ∀ b ∈ hb, 0 ≤ b ∧ b ≤ cap) (hsb0 : 0 ≤ sb) (hsbc : sb ≤ scap) :
    out.updatedHouseholdBatteries.length = hb.length ∧
    (∀ b ∈ out.updatedHouseholdBatteries, 0 ≤ b ∧ b ≤ cap) ∧
    0 ≤ out.updatedSharedBattery ∧ out.updatedSharedBattery ≤ scap ∧
    0 ≤ out.gridPurchase ∧ 0 ≤ out.gridSell ∧ out.gridSell ≤ pv ∧
    (out.gridPurchase = 0 ∨ out.gridSell = 0) ∧
    pv + out.gridPurchase = (hl + fl + pl + el) + out.gridSell +
      ((out.updatedHouseholdBatteries.sum + out.updatedSharedBattery) -
        (hb.sum + sb)) := by
  subst hout
  by_cases hnet : 0 < pv - (hl + fl + pl + el)
  · -- surplus branch
    simp only [simulateOneHour, if_pos hnet]
    have hs0 : (0 : ℝ) ≤ pv - (hl + fl + pl + el) := le_of_lt hnet
    set P := chargeHouseholds hb.length cap hb (pv - (hl + fl + pl + el))
      with hP
    have hsur := chargeHouseholds_surplus hb.length cap hb
      (pv - (hl + fl + pl + el)) hs0 hmem
    have hsum := chargeHouseholds_sum hb.length cap hb
      (pv - (hl + fl + pl + el))
    have hlen := chargeHouseholds_length hb.length cap hb
      (pv - (hl + fl + pl + el))
    have hmem' := chargeHouseholds_mem hb.length cap hb
      (pv - (hl + fl + pl + el)) hs0 hmem
    rw [← hP] at hsur hsum hlen hmem'
    set c := if 0 < P.2 then min P.2 (scap - sb) else 0 with hc
    have hc0 : 0 ≤ c := by
      rw [hc]; split_ifs with h
      · exact le_min h.le (by linarith)
      · exact le_refl 0
    have hcP : c ≤ P.2 := by
      rw [hc]; split_ifs with h
      · exact min_le_left _ _
      · exact hsur.1
    have hcS : c ≤ scap - sb := by
      rw [hc]; split_ifs with h
      · exact min_le_right _ _
      · linarith
    have hsell : (if 0 < P.2 - c then P.2 - c else 0) = P.2 - c := by
      split_ifs with h
      · rfl
      · have h1 := not_lt.mp h
        linarith
    rw [hsell]
    refine ⟨hlen, hmem', by linarith, by linarith, le_refl 0, by linarith,
      by linarith [hsur.2], Or.inl trivial, by linarith⟩
  · -- shortfall branch
    simp only [simulateOneHour, if_neg hnet]
    have hs0 : (0 : ℝ) ≤ -(pv - (hl + fl + pl + el)) := by
      have := not_lt.mp hnet
      linarith
    set P := dischargeHouseholds hb.length hb (-(pv - (hl + fl + pl + el)))
      with hP
    have hsur := dischargeHouseholds_shortage hb.length hb
      (-(pv - (hl + fl + pl + el))) hs0 (fun b hbm => (hmem b hbm).1)
    have hsum := dischargeHouseholds_sum hb.length hb
      (-(pv - (hl + fl + pl + el)))
    have hlen := dischargeHouseholds_length hb.length hb
      (-(pv - (hl + fl + pl + el)))
    have hmem' := dischargeHouseholds_mem hb.length cap hb
      (-(pv - (hl + fl + pl + el))) hs0 hmem
    rw [← hP] at hsur hsum hlen hmem'
    set d := if 0 < P.2 then min P.2 sb else 0 with hd
    have hd0 : 0 ≤ d := by
      rw [hd]; split_ifs with h
      · exact le_min h.le hsb0
      · exact le_refl 0
    have hdP : d ≤ P.2 := by
      rw [hd]; split_ifs with h
      · exact min_le_left _ _
      · exact hsur.1
    have hdS : d ≤ sb := by
      rw [hd]; split_ifs with h
      · exact min_le_right _ _
      · exact hsb0
    have hpur : (if 0 < P.2 - d then P.2 - d else 0) = P.2 - d := by
      split_ifs with h
      · rfl
      · have h1 := not_lt.mp h
        linarith
    rw [hpur]
    refine ⟨hlen, hmem', by linarith, by linarith, by linarith, le_refl 0,
      hpv, Or.inr trivial, by linarith⟩

/-! ### Non-negativity of the pattern generators -/

/-- The raw household curve is non-negative (base stays above 0.1, the
Gaussian peaks are positive). -/
theorem householdLoadRaw_nonneg (t : ℕ) : 0 ≤ householdLoadRaw t := by
  simp only [householdLoadRaw]
  have h1 := Real.neg_one_le_sin (2 * Real.pi * (t : ℝ) / 24)
  have h2 := (Real.exp_pos (-(((t : ℝ) - 8) / 1.5) ^ 2)).le
  have h3 := (Real.exp_pos (-(((t : ℝ) - 20) / 2) ^ 2)).le
  linarith

/-- Every entry of the normalized household load pattern is non-negative. -/
theorem generateHouseholdLoadPattern_nonneg (hours : ℕ) :
    ∀ x ∈ generateHouseholdLoadPattern hours, 0 ≤ x := by
  intro x hx
  simp only [generateHouseholdLoadPattern] at hx
  obtain ⟨p, hp, rfl⟩ := List.mem_map.mp hx
  refine mul_nonneg (div_nonneg ?_ ?_) (by norm_num)
  · obtain ⟨t, _, rfl⟩ := List.mem_map.mp hp
    exact householdLoadRaw_nonneg t
  · rcases hl : (List.range hours).map householdLoadRaw with _ | ⟨a, l⟩
    · rw [hl] at hp
      simp at hp
    · have ha : a ∈ (List.range hours).map householdLoadRaw := by
        rw [hl]
        exact List.mem_cons_self a l
      obtain ⟨u, _, rfl⟩ := List.mem_map.mp ha
      exact le_trans (householdLoadRaw_nonneg u) (head_le_listMax _ l)

/-- Every entry of factory pattern A is non-negative (clamped above
0.8·base = 280). -/
theorem generateFactoryLoadPatternA_nonneg (hours : ℕ) :
    ∀ x ∈ generateFactoryLoadPatternA hours, 0 ≤ x := by
  intro x hx
  simp only [generateFactoryLoadPatternA] at hx
  obtain ⟨t, _, rfl⟩ := List.mem_map.mp hx
  refine le_trans ?_ (le_max_left _ _)
  norm_num [FACTORY_LOAD_BASE]

/-- Every entry of factory pattern B is non-negative (clamped above
0.5·base = 175). -/
theorem generateFactoryLoadPatternB_nonneg (hours : ℕ) :
    ∀ x ∈ generateFactoryLoadPatternB hours, 0 ≤ x := by
  intro x hx
  simp only [generateFactoryLoadPatternB] at hx
  obtain ⟨t, _, rfl⟩ := List.mem_map.mp hx
  refine le_trans ?_ (le_max_left _ _)
  norm_num [FACTORY_LOAD_BASE]

/-- Every entry of the public-facility pattern is non-negative. -/
theorem generatePublicFacilityLoadPattern_nonneg (hours : ℕ) :
    ∀ x ∈ generatePublicFacilityLoadPattern hours, 0 ≤ x := by
  intro x hx
  simp only [generatePublicFacilityLoadPattern] at hx
  obtain ⟨t, _, rfl⟩ := List.mem_map.mp hx
  simp only [PUBLIC_FACILITY_LOAD_BASE, PUBLIC_FACILITY_LOAD_PEAK]
  positivity

/-- Every entry of the PV pattern is non-negative for a non-negative PV
capacity. -/
theorem generatePvGenerationPattern_nonneg (hours : ℕ) (c : ℝ) (hc : 0 ≤ c) :
    ∀ x ∈ generatePvGenerationPattern hours c, 0 ≤ x := by
  intro x hx
  simp only [generatePvGenerationPattern] at hx
  obtain ⟨i, _, rfl⟩ := List.mem_map.mp hx
  refine mul_nonneg (mul_nonneg ?_ hc) (by norm_num)
  split_ifs
  · exact (Real.exp_pos _).le
  · exact le_refl 0

/-- Every entry of the EV pattern is non-negative. -/
theorem generateEvLoadPattern_nonneg (hours : ℕ) :
    ∀ x ∈ generateEvLoadPattern hours, 0 ≤ x := by
  intro x hx
  simp only [generateEvLoadPattern] at hx
  obtain ⟨i, _, rfl⟩ := List.mem_map.mp hx
  split_ifs
  · norm_num [EV_CHARGING_POWER]
  · exact le_refl 0

/-- Every entry of the selected factory pattern is non-negative. -/
theorem factoryPattern_nonneg (params : SimulationParams) :
    ∀ x ∈ factoryPattern params, 0 ≤ x := by
  unfold factoryPattern
  split_ifs
  · exact generateFactoryLoadPatternA_nonneg 24
  · exact generateFactoryLoadPatternB_nonneg 24

/-- Aggregate PV for any hour is non-negative. -/
theorem pvAt_nonneg (params : SimulationParams)
    (hc : 0 ≤ params.householdPvCapacity) (h : ℕ) : 0 ≤ pvAt params h :=
  mul_nonneg
    (getD_nonneg _ (generatePvGenerationPattern_nonneg 24 _ hc) h)
    (Nat.cast_nonneg _)

/-- Aggregate load for any hour is non-negative. -/
theorem loadAt_nonneg (params : SimulationParams) (h : ℕ) :
    0 ≤ loadAt params h := by
  unfold loadAt
  have h1 : (0 : ℝ) ≤ (generateHouseholdLoadPattern 24).getD h 0 *
      (params.numHouseholds : ℝ) :=
    mul_nonneg (getD_nonneg _ (generateHouseholdLoadPattern_nonneg 24) h)
      (Nat.cast_nonneg _)
  have h2 : (0 : ℝ) ≤ (factoryPattern params).getD h 0 :=
    getD_nonneg _ (factoryPattern_nonneg params) h
  have h3 : (0 : ℝ) ≤ (generatePublicFacilityLoadPattern 24).getD h 0 :=
    getD_nonneg _ (generatePublicFacilityLoadPattern_nonneg 24) h
  have h4 : (0 : ℝ) ≤ (generateEvLoadPattern 24).getD h 0 *
      (params.numHouseholds : ℝ) :=
    mul_nonneg (getD_nonneg _ (generateEvLoadPattern_nonneg 24) h)
      (Nat.cast_nonneg _)
  linarith

/-! ### The loop invariant -/

/-- The 50%-of-capacity initial state satisfies the invariant at step 0. -/
theorem loopInv_init (params : SimulationParams) (hv : ValidParams params) :
    LoopInv params 0 (initState params) := by
  obtain ⟨hv1, hv2, hv3, hv4⟩ := hv
  refine ⟨?_, ?_, ?_, ?_, ?_, ?_, ?_, ?_, ?_, ?_, ?_, ?_⟩
  · simp [initState]
  · intro b hb
    simp only [initState, List.mem_replicate] at hb
    rw [hb.2]
    constructor <;> linarith
  · simp only [initState]
    linarith
  · simp only [initState]
    linarith
  · simp [initState]
  · intro r hr
    simp [initState] at hr
  · exact trivial
  · simp only [initState, lastLevel, initLevel, List.sum_replicate]
    rw [nsmul_eq_mul]
  · simp [initState]
  · simp [initState]
  · simp [initState]
  · simp [initState]

/-- One simulation step preserves the loop invariant. -/
theorem loopInv_step (params : SimulationParams) (hv : ValidParams params)
    (n : ℕ) (st : SimState) (inv : LoopInv params n st) :
    LoopInv params (n + 1) (simStep params st n) := by
  obtain ⟨hv1, hv2, hv3, hv4⟩ := hv
  have hpv0 : 0 ≤ (generatePvGenerationPattern 24
      params.householdPvCapacity).getD n 0 * (params.numHouseholds : ℝ) :=
    pvAt_nonneg params hv2 n
  have hload0 : 0 ≤ (generateHouseholdLoadPattern 24).getD n 0 *
        (params.numHouseholds : ℝ) + (factoryPattern params).getD n 0 +
        (generatePublicFacilityLoadPattern 24).getD n 0 +
        (generateEvLoadPattern 24).getD n 0 * (params.numHouseholds : ℝ) :=
    loadAt_nonneg params n
  obtain ⟨hlen, hmem, hshLo, hshHi, hpur0, hsell0, hsellpv, hdisj, hbal⟩ :=
    simulateOneHour_props
      ((generatePvGenerationPattern 24 params.householdPvCapacity).getD n 0 *
        (params.numHouseholds : ℝ))
      ((generateHouseholdLoadPattern 24).getD n 0 *
        (params.numHouseholds : ℝ))
      ((factoryPattern params).getD n 0)
      ((generatePublicFacilityLoadPattern 24).getD n 0)
      ((generateEvLoadPattern 24).getD n 0 * (params.numHouseholds : ℝ))
      st.householdBatteries st.sharedBattery
      params.householdBatteryCapacity params.sharedBatteryCapacity
      _ rfl hpv0 hload0 inv.hbMem inv.sbLo inv.sbHi
  have hsum0 : 0 ≤ (simulateOneHour
      ((generatePvGenerationPattern 24 params.householdPvCapacity).getD n 0 *
        (params.numHouseholds : ℝ))
      ((generateHouseholdLoadPattern 24).getD n 0 *
        (params.numHouseholds : ℝ))
      ((factoryPattern params).getD n 0)
      ((generatePublicFacilityLoadPattern 24).getD n 0)
      ((generateEvLoadPattern 24).getD n 0 * (params.numHouseholds : ℝ))
      st.householdBatteries st.sharedBattery
      params.householdBatteryCapacity
      params.sharedBatteryCapacity).updatedHouseholdBatteries.sum :=
    List.sum_nonneg (fun x hx => (hmem x hx).1)
  have hsumN : (simulateOneHour
      ((generatePvGenerationPattern 24 params.householdPvCapacity).getD n 0 *
        (params.numHouseholds : ℝ))
      ((generateHouseholdLoadPattern 24).getD n 0 *
        (params.numHouseholds : ℝ))
      ((factoryPattern params).getD n 0)
      ((generatePublicFacilityLoadPattern 24).getD n 0)
      ((generateEvLoadPattern 24).getD n 0 * (params.numHouseholds : ℝ))
      st.householdBatteries st.sharedBattery
      params.householdBatteryCapacity
      params.sharedBatteryCapacity).updatedHouseholdBatteries.sum ≤
      (params.numHouseholds : ℝ) * params.householdBatteryCapacity := by
    have := List.sum_le_card_nsmul _ _ (fun x hx => (hmem x hx).2)
    rw [hlen, inv.len, nsmul_eq_mul] at this
    exact this
  refine ⟨?_, ?_, ?_, ?_, ?_, ?_, ?_, ?_, ?_, ?_, ?_, ?_⟩
  · simp only [simStep]
    exact hlen.trans inv.len
  · simp only [simStep]
    exact hmem
  · simp only [simStep]
    exact hshLo
  · simp only [simStep]
    exact hshHi
  · simp only [simStep]
    rw [List.map_append, inv.hoursEq, List.range_succ]
    rfl
  · simp only [simStep]
    intro r hr
    rcases List.mem_append.mp hr with hr | hr
    · exact inv.recOK r hr
    · rw [List.mem_singleton.mp hr]
      exact ⟨rfl, rfl, hpv0, hload0, hpur0, hsell0, hsellpv, hsum0, hsumN,
        hshLo, hshHi, hdisj⟩
  · simp only [simStep]
    refine hourlyBalanced_append inv.balanced ?_
    rw [inv.lastLvl]
    exact balance_max_form hbal
  · simp only [simStep]
    rw [lastLevel_append]
    rfl
  · simp only [simStep]
    rw [inv.pvTotal, Finset.sum_range_succ]
    rfl
  · simp only [simStep]
    exact add_nonneg inv.sellLo hsell0
  · simp only [simStep]
    exact add_le_add inv.sellHi hsellpv
  · simp only [simStep]
    exact add_nonneg inv.purchaseLo hpur0

/-- The invariant holds after every number of loop steps. -/
theorem loopInv_all (params : SimulationParams) (hv : ValidParams params)
    (n : ℕ) : LoopInv params n (simLoop params n) := by
  induction n with
  | zero =>
    have h0 : simLoop params 0 = initState params := by simp [simLoop]
    rw [h0]
    exact loopInv_init params hv
  | succ m ih =>
    have hstep : simLoop params (m + 1) =
        simStep params (simLoop params m) m := by
      simp [simLoop, List.range_succ]
    rw [hstep]
    exact loopInv_step params hv m _ ih

/-- Discharging with zero shortage leaves the batteries untouched. -/
theorem dischargeHouseholds_zero (n : ℕ) (l : List ℝ) :
    dischargeHouseholds n l 0 = (l, 0) := by
  cases l with
  | nil => rfl
  | cons b bs => simp [dischargeHouseholds]

/-! ### Claim theorems -/

/-- C3: the allocator, given two household batteries at level 5 with
capacity 10 each, shared battery at level 0 with capacity 50, and a net
surplus of 70 (generation 70, load 0), fills both household batteries to
10, fills the shared battery to 50, sells 10 to the grid and buys
nothing. -/
theorem claim_C3_surplus_scenario :
    simulateOneHour 70 0 0 0 0 [5, 5] 0 10 50 =
      { gridPurchase := 0
        gridSell := 10
        updatedHouseholdBatteries := [10, 10]
        updatedSharedBattery := 50 } := by
  norm_num [simulateOneHour, chargeHouseholds, min_def]

/-- C4: the allocator, given two household batteries at level 5 with
capacity 10 each, shared battery at level 20 with capacity 50, and a net
shortage of 40 (generation 0, load 40), discharges min(40/2, 5) = 5 from
each household battery, then min(30, 20) = 20 from the shared battery, and
buys the remaining 10 from the grid, selling nothing. -/
theorem claim_C4_shortfall_scenario :
    simulateOneHour 0 40 0 0 0 [5, 5] 20 10 50 =
      { gridPurchase := 10
        gridSell := 0
        updatedHouseholdBatteries := [0, 0]
        updatedSharedBattery := 0 } := by
  norm_num [simulateOneHour, dischargeHouseholds, min_def]

/-- C6: when generation exactly equals load (net = 0), the allocator leaves
every battery level unchanged and reports zero grid purchase and zero grid
sell. -/
theorem claim_C6_net_zero (pv hl fl pl el : ℝ) (hb : List ℝ)
    (sb cap scap : ℝ) (hnet : pv - (hl + fl + pl + el) = 0) :
    simulateOneHour pv hl fl pl el hb sb cap scap =
      { gridPurchase := 0
        gridSell := 0
        updatedHouseholdBatteries := hb
        updatedSharedBattery := sb } := by
  simp [simulateOneHour, hnet, dischargeHouseholds_zero]

/-- Witness for C6 at a concrete input: generation 5 against load 5 with
one battery at 1. -/
theorem claim_C6_net_zero_witness :
    ((5 : ℝ) - (5 + 0 + 0 + 0) = 0) ∧
      simulateOneHour 5 5 0 0 0 [1] 2 3 4 =
        { gridPurchase := 0
          gridSell := 0
          updatedHouseholdBatteries := [1]
          updatedSharedBattery := 2 } :=
  ⟨by norm_num, claim_C6_net_zero 5 5 0 0 0 [1] 2 3 4 (by norm_num)⟩

/-- C7: with an empty household battery collection the allocator performs
no division by zero and skips the household pass: its result is exactly the
surplus/shortage routed to the shared battery and then the grid. -/
theorem claim_C7_empty_households (pv hl fl pl el sb cap scap : ℝ) :
    simulateOneHour pv hl fl pl el [] sb cap scap =
      sharedThenGrid pv (hl + fl + pl + el) sb scap := by
  simp only [simulateOneHour, sharedThenGrid, chargeHouseholds,
    dischargeHouseholds, List.length_nil]

/-- C10: the allocator never reports both a nonzero grid purchase and a
nonzero grid sell (selling happens only on the surplus branch, purchasing
only on the shortfall branch); hence in every record of every valid run at
most one of the two is nonzero. -/
theorem claim_C10_exclusive_grid_flows (params : SimulationParams)
    (hv : ValidParams params) :
    (∀ pv hl fl pl el : ℝ, ∀ hb : List ℝ, ∀ sb cap scap : ℝ,
      (simulateOneHour pv hl fl pl el hb sb cap scap).gridPurchase = 0 ∨
        (simulateOneHour pv hl fl pl el hb sb cap scap).gridSell = 0) ∧
    ∀ r ∈ (runSimulation params).hourlyResults,
      r.gridPurchase = 0 ∨ r.gridSell = 0 := by
  constructor
  · intro pv hl fl pl el hb sb cap scap
    by_cases hnet : 0 < pv - (hl + fl + pl + el)
    · left
      simp [simulateOneHour, hnet]
    · right
      simp [simulateOneHour, hnet]
  · intro r hr
    have inv := loopInv_all params hv 24
    simp only [runSimulation] at hr
    exact (inv.recOK r hr).2.2.2.2.2.2.2.2.2.2.2

/-- Witness for C10 at the app's default parameters. -/
theorem claim_C10_exclusive_grid_flows_witness :
    ValidParams sampleParams ∧
      ((∀ pv hl fl pl el : ℝ, ∀ hb : List ℝ, ∀ sb cap scap : ℝ,
        (simulateOneHour pv hl fl pl el hb sb cap scap).gridPurchase = 0 ∨
          (simulateOneHour pv hl fl pl el hb sb cap scap).gridSell = 0) ∧
      ∀ r ∈ (runSimulation sampleParams).hourlyResults,
        r.gridPurchase = 0 ∨ r.gridSell = 0) :=
  ⟨sampleParams_valid,
    claim_C10_exclusive_grid_flows sampleParams sampleParams_valid⟩

/-- Closed form of a PV pattern entry. -/
theorem generatePvGenerationPattern_getD (hours : ℕ) (c : ℝ) {h : ℕ}
    (hh : h < hours) (hlt : h < 24) :
    (generatePvGenerationPattern hours c).getD h 0 =
      (if 6 ≤ h ∧ h ≤ 18 then Real.exp (-(((h : ℝ) - 12) / 3) ^ 2) else 0)
        * c * 0.8 := by
  simp only [generatePvGenerationPattern]
  rw [getD_map_range _ _ hh, Nat.mod_eq_of_lt hlt]

/-- The hourly records of runSimulation are those accumulated by 24 loop
steps. -/
theorem runSimulation_hourlyResults (params : SimulationParams) :
    (runSimulation params).hourlyResults =
      (simLoop params 24).hourlyResults := rfl

/-- The energy balance holds along the records of any number of loop
steps. -/
theorem simLoop_balanced (params : SimulationParams)
    (hv : ValidParams params) (n : ℕ) :
    hourlyBalanced (initLevel params) (simLoop params n).hourlyResults :=
  (loopInv_all params hv n).balanced

/-- C1: for every valid run, every hour of the output satisfies the energy
balance: pvGeneration + gridPurchase + (net battery discharge, when
positive) equals totalLoad + gridSell + (net battery charge, when
positive), the level before hour 0 being the 50%-of-capacity initial
level. -/
theorem claim_C1_energy_balance (params : SimulationParams)
    (hv : ValidParams params) :
    hourlyBalanced (initLevel params) (runSimulation params).hourlyResults := by
  rw [runSimulation_hourlyResults]
  exact simLoop_balanced params hv 24

/-- Witness for C1 at the app's default parameters. -/
theorem claim_C1_energy_balance_witness :
    ValidParams sampleParams ∧
      hourlyBalanced (initLevel sampleParams)
        (runSimulation sampleParams).hourlyResults :=
  ⟨sampleParams_valid, claim_C1_energy_balance sampleParams sampleParams_valid⟩

/-- C2: for every valid run, after every number of allocator steps from the
50%-of-capacity initial state every individual household battery level lies
in [0, householdBatteryCapacity] and the shared battery level lies in
[0, sharedBatteryCapacity]; and in every HourlyResult the summed household
level lies in [0, numHouseholds × capacity], the shared level lies in
[0, sharedBatteryCapacity], and pvGeneration, totalLoad, gridPurchase and
gridSell are all non-negative. -/
theorem claim_C2_bounds (params : SimulationParams) (hv : ValidParams params) :
    (∀ n : ℕ,
      (∀ b ∈ (simLoop params n).householdBatteries,
        0 ≤ b ∧ b ≤ params.householdBatteryCapacity) ∧
      0 ≤ (simLoop params n).sharedBattery ∧
      (simLoop params n).sharedBattery ≤ params.sharedBatteryCapacity) ∧
    ∀ r ∈ (runSimulation params).hourlyResults,
      0 ≤ r.sharedBatteryLevel ∧
      r.sharedBatteryLevel ≤ params.sharedBatteryCapacity ∧
      0 ≤ r.householdBatteryLevel ∧
      r.householdBatteryLevel ≤
        (params.numHouseholds : ℝ) * params.householdBatteryCapacity ∧
      0 ≤ r.pvGeneration ∧ 0 ≤ r.totalLoad ∧
      0 ≤ r.gridPurchase ∧ 0 ≤ r.gridSell := by
  constructor
  · intro n
    have inv := loopInv_all params hv n
    exact ⟨inv.hbMem, inv.sbLo, inv.sbHi⟩
  · intro r hr
    have inv := loopInv_all params hv 24
    simp only [runSimulation] at hr
    obtain ⟨_, _, hpv, hload, hpur, hsell, _, hh0, hhN, hs0, hsN, _⟩ :=
      inv.recOK r hr
    exact ⟨hs0, hsN, hh0, hhN, hpv, hload, hpur, hsell⟩

/-- Witness for C2 at the app's default parameters. -/
theorem claim_C2_bounds_witness :
    ValidParams sampleParams ∧
      ((∀ n : ℕ,
        (∀ b ∈ (simLoop sampleParams n).householdBatteries,
          0 ≤ b ∧ b ≤ sampleParams.householdBatteryCapacity) ∧
        0 ≤ (simLoop sampleParams n).sharedBattery ∧
        (simLoop sampleParams n).sharedBattery ≤
          sampleParams.sharedBatteryCapacity) ∧
      ∀ r ∈ (runSimulation sampleParams).hourlyResults,
        0 ≤ r.sharedBatteryLevel ∧
        r.sharedBatteryLevel ≤ sampleParams.sharedBatteryCapacity ∧
        0 ≤ r.householdBatteryLevel ∧
        r.householdBatteryLevel ≤
          (sampleParams.numHouseholds : ℝ) *
            sampleParams.householdBatteryCapacity ∧
        0 ≤ r.pvGeneration ∧ 0 ≤ r.totalLoad ∧
        0 ≤ r.gridPurchase ∧ 0 ≤ r.gridSell) :=
  ⟨sampleParams_valid, claim_C2_bounds sampleParams sampleParams_valid⟩

/-- C5: for every valid run, whenever totalPvGeneration is positive the
self-consumption rate lies in [0, 100] (equivalently totalGridSell never
exceeds totalPvGeneration), and whenever totalPvGeneration is 0 the rate is
defined to be 0 (no division is performed). -/
theorem claim_C5_self_consumption (params : SimulationParams)
    (hv : ValidParams params) :
    (0 < (runSimulation params).totalPvGeneration →
      (runSimulation params).totalGridSell ≤
          (runSimulation params).totalPvGeneration ∧
        0 ≤ (runSimulation params).selfConsumptionRate ∧
        (runSimulation params).selfConsumptionRate ≤ 100) ∧
    ((runSimulation params).totalPvGeneration = 0 →
      (runSimulation params).selfConsumptionRate = 0) := by
  have inv := loopInv_all params hv 24
  simp only [runSimulation]
  constructor
  · intro hpos
    refine ⟨inv.sellHi, ?_, ?_⟩
    · rw [if_pos hpos]
      have h1 : 0 ≤ (simLoop params 24).totalPvGeneration -
          (simLoop params 24).totalGridSell := by
        linarith [inv.sellHi]
      exact mul_nonneg (div_nonneg h1 hpos.le) (by norm_num)
    · rw [if_pos hpos]
      have h2 : ((simLoop params 24).totalPvGeneration -
            (simLoop params 24).totalGridSell) /
          (simLoop params 24).totalPvGeneration ≤ 1 := by
        rw [div_le_one hpos]
        linarith [inv.sellLo]
      have h3 := mul_le_mul_of_nonneg_right h2 (by norm_num : (0:ℝ) ≤ 100)
      linarith
  · intro h0
    rw [h0]
    simp

/-- Witness for C5 at the app's default parameters. -/
theorem claim_C5_self_consumption_witness :
    ValidParams sampleParams ∧
      ((0 < (runSimulation sampleParams).totalPvGeneration →
        (runSimulation sampleParams).totalGridSell ≤
            (runSimulation sampleParams).totalPvGeneration ∧
          0 ≤ (runSimulation sampleParams).selfConsumptionRate ∧
          (runSimulation sampleParams).selfConsumptionRate ≤ 100) ∧
      ((runSimulation sampleParams).totalPvGeneration = 0 →
        (runSimulation sampleParams).selfConsumptionRate = 0)) :=
  ⟨sampleParams_valid,
    claim_C5_self_consumption sampleParams sampleParams_valid⟩

/-- C8: every valid run returns hourly records whose hour indices are
exactly 0, 1, ..., 23 in order (24 records); and at the default parameters
(100 households, PV 15, household battery 10, shared battery 500,
pattern A) the total PV generation is positive. -/
theorem claim_C8_run_shape (params : SimulationParams)
    (hv : ValidParams params) :
    ((runSimulation params).hourlyResults.map HourlyResult.hour =
        List.range 24 ∧
      (runSimulation params).hourlyResults.length = 24) ∧
    0 < (runSimulation sampleParams).totalPvGeneration := by
  constructor
  · have inv := loopInv_all params hv 24
    simp only [runSimulation]
    refine ⟨inv.hoursEq, ?_⟩
    have hlen := congrArg List.length inv.hoursEq
    simpa using hlen
  · have inv := loopInv_all sampleParams sampleParams_valid 24
    simp only [runSimulation]
    rw [inv.pvTotal]
    have h12 : 0 < pvAt sampleParams 12 := by
      unfold pvAt
      rw [generatePvGenerationPattern_getD 24 _ (by norm_num) (by norm_num)]
      rw [if_pos (by norm_num : 6 ≤ 12 ∧ 12 ≤ 18)]
      have hexp := Real.exp_pos (-((((12:ℕ) : ℝ) - 12) / 3) ^ 2)
      have hc : sampleParams.householdPvCapacity = 15 := rfl
      have hn : ((sampleParams.numHouseholds : ℕ) : ℝ) = 100 := by
        norm_num [sampleParams]
      rw [hc, hn]
      positivity
    have hle : pvAt sampleParams 12 ≤
        (Finset.range 24).sum (fun h => pvAt sampleParams h) :=
      Finset.single_le_sum
        (fun i _ => pvAt_nonneg sampleParams (by norm_num [sampleParams]) i)
        (by norm_num : (12:ℕ) ∈ Finset.range 24)
    linarith

/-- Witness for C8 at the app's default parameters. -/
theorem claim_C8_run_shape_witness :
    ValidParams sampleParams ∧
      (((runSimulation sampleParams).hourlyResults.map HourlyResult.hour =
          List.range 24 ∧
        (runSimulation sampleParams).hourlyResults.length = 24) ∧
      0 < (runSimulation sampleParams).totalPvGeneration) :=
  ⟨sampleParams_valid, claim_C8_run_shape sampleParams sampleParams_valid⟩

/-- C9: for hours 0..23 the PV pattern entry equals
exp(-((h-12)/3)²) × pvCapacity × 0.8 for 6 ≤ h ≤ 18 and 0 otherwise; and
every record's pvGeneration is that curve value times the household
count. -/
theorem claim_C9_pv_curve (c : ℝ) (params : SimulationParams)
    (hv : ValidParams params) (h : ℕ) (hh : h < 24) :
    ((generatePvGenerationPattern 24 c).getD h 0 =
      if 6 ≤ h ∧ h ≤ 18 then Real.exp (-(((h : ℝ) - 12) / 3) ^ 2) * c * 0.8
      else 0) ∧
    ∀ r ∈ (runSimulation params).hourlyResults,
      r.pvGeneration =
        (generatePvGenerationPattern 24
            params.householdPvCapacity).getD r.hour 0 *
          (params.numHouseholds : ℝ) := by
  constructor
  · rw [generatePvGenerationPattern_getD 24 c hh hh]
    split_ifs
    · rfl
    · ring
  · intro r hr
    have inv := loopInv_all params hv 24
    simp only [runSimulation] at hr
    exact (inv.recOK r hr).1

/-- Witness for C9 at hour 12, unit capacity, default parameters. -/
theorem claim_C9_pv_curve_witness :
    ValidParams sampleParams ∧ (12 : ℕ) < 24 ∧
      (((generatePvGenerationPattern 24 1).getD 12 0 =
        if 6 ≤ (12:ℕ) ∧ (12:ℕ) ≤ 18 then
          Real.exp (-((((12:ℕ) : ℝ) - 12) / 3) ^ 2) * 1 * 0.8
        else 0) ∧
      ∀ r ∈ (runSimulation sampleParams).hourlyResults,
        r.pvGeneration =
          (generatePvGenerationPattern 24
              sampleParams.householdPvCapacity).getD r.hour 0 *
            (sampleParams.numHouseholds : ℝ)) :=
  ⟨sampleParams_valid, by norm_num,
    claim_C9_pv_curve 1 sampleParams sampleParams_valid 12 (by norm_num)⟩

end EnergySim
